import Mathlib

/-!
Verification development for the digital-evidence-vault repository.

We shallowly embed the two components the claims are about:

* the Solidity contract `EvidenceRegistry` (registration, custody log,
  verification, attestations), with contract storage as an explicit state
  record, `msg.sender` / `block.timestamp` as explicit parameters, reverts
  as `Except.error` (a revert discards all writes, so an `error` result
  leaves the caller with the unchanged pre-state), and emitted Solidity
  events collected in an append-only list inside the state;
* the JavaScript `PolicyEngine` service (custody-order validation,
  parallel-access and access-duration checks), with its two module-level
  maps as an explicit state record and `Date.now()` as an explicit
  parameter;
* the blockchain-service helper `getActionName` (reverse lookup of a
  canonical action hash).

`bytes32` values and addresses are modelled as `Nat`; the 32-byte zero
value is `0`.  `keccak256` over strings is modelled by an injective
radix-1114112 encoding of the string (each `Char.toNat` is below 1114112
and the accumulator starts at 1, so distinct strings get distinct nonzero
codes); the claims only depend on determinism, nonzeroness and
distinctness of the digests of finitely many concrete strings, which the
encoding provides without importing a bit-level Keccak.
The two `unchecked` counter increments in the contract wrap modulo 2^256,
which the model keeps explicit.
-/

/-- Modulus of the Solidity `uint256` type; the contract increments its
counters inside `unchecked` blocks, so they wrap at this modulus. -/
def UINT256_MOD : Nat := 2 ^ 256

/-- Model of `keccak256(bytes(s))` for string inputs: an injective encoding
of the string as a natural number (radix 1114112 digits with a leading 1).
It is deterministic, never zero, and injective, which is all the claims use. -/
def keccak256 (s : String) : Nat :=
  s.data.foldl (fun a c => a * 1114112 + c.toNat) 1

namespace EvidenceRegistry

/-- Mirrors `enum EvidenceStatus { NONE, REGISTERED, FLAGGED, VERIFIED }`. -/
inductive EvidenceStatus where
  | NONE
  | REGISTERED
  | FLAGGED
  | VERIFIED
deriving DecidableEq, Repr

/-- Mirrors `bytes32 public constant ACTION_COLLECTED = keccak256("COLLECTED")`. -/
def ACTION_COLLECTED : Nat := keccak256 "COLLECTED"

/-- Mirrors `ACTION_ACCESSED = keccak256("ACCESSED")`. -/
def ACTION_ACCESSED : Nat := keccak256 "ACCESSED"

/-- Mirrors `ACTION_TRANSFERRED = keccak256("TRANSFERRED")`. -/
def ACTION_TRANSFERRED : Nat := keccak256 "TRANSFERRED"

/-- Mirrors `ACTION_VERIFIED = keccak256("VERIFIED")`. -/
def ACTION_VERIFIED : Nat := keccak256 "VERIFIED"

/-- Mirrors `ACTION_ANALYZED = keccak256("ANALYZED")`. -/
def ACTION_ANALYZED : Nat := keccak256 "ANALYZED"

/-- Mirrors `ACTION_VIOLATION = keccak256("VIOLATION")`. -/
def ACTION_VIOLATION : Nat := keccak256 "VIOLATION"

/-- Mirrors `struct Evidence`.  A Solidity mapping yields the all-zero
struct for absent keys, so the state stores a total map into `Evidence`
whose default has `status = NONE`. -/
structure Evidence where
  evidenceHash : Nat
  caseId : String
  collector : Nat
  timestamp : Nat
  status : EvidenceStatus
  custodyEventCount : Nat
deriving DecidableEq, Repr

/-- Default (all-zero) `Evidence` struct, as returned by a Solidity
mapping for an unset key. -/
def defaultEvidence : Evidence :=
  { evidenceHash := 0, caseId := "", collector := 0, timestamp := 0,
    status := .NONE, custodyEventCount := 0 }

/-- Mirrors `struct CustodyEvent`. -/
structure CustodyEvent where
  handler : Nat
  action : Nat
  timestamp : Nat
  metadataHash : Nat
deriving DecidableEq, Repr

/-- Default (all-zero) `CustodyEvent` struct. -/
def defaultCustodyEvent : CustodyEvent :=
  { handler := 0, action := 0, timestamp := 0, metadataHash := 0 }

/-- Mirrors `struct Attestation`. -/
structure Attestation where
  verifier : Nat
  verified : Bool
  timestamp : Nat
deriving DecidableEq, Repr

/-- Solidity events emitted by the contract, kept in an append-only list
inside the model state. -/
inductive LogEvent where
  | EvidenceRegistered (evidenceId evidenceHash : Nat) (caseId : String)
      (collector ts : Nat)
  | CustodyEventLogged (evidenceId handler action eventIndex ts : Nat)
  | VerificationPassed (evidenceId verifier ts : Nat)
  | TamperDetected (evidenceId verifier expectedHash submittedHash ts : Nat)
  | VerificationAttested (evidenceId verifier : Nat) (verified : Bool) (ts : Nat)
deriving DecidableEq, Repr

/-- Contract storage: `_evidenceCounter`, `_evidence`, `_custodyLog`,
`_hashRegistered`, `_attestations`, `isRegisteredVerifier`, plus the
append-only stream of emitted events. -/
structure RState where
  evidenceCounter : Nat
  evidence : Nat → Evidence
  custodyLog : Nat → Nat → CustodyEvent
  hashRegistered : Nat → Bool
  attestations : Nat → List Attestation
  isRegisteredVerifier : Nat → Bool
  events : List LogEvent

/-- Freshly deployed contract: every storage slot at its zero value. -/
def initialState : RState :=
  { evidenceCounter := 0,
    evidence := fun _ => defaultEvidence,
    custodyLog := fun _ _ => defaultCustodyEvent,
    hashRegistered := fun _ => false,
    attestations := fun _ => [],
    isRegisteredVerifier := fun _ => false,
    events := [] }

/-- Mirrors the `evidenceExists` modifier: its two `require`s, run before
the function body; an error models the revert. -/
def requireExists (evidenceId : Nat) (s : RState) : Except String Unit :=
  if 0 < evidenceId ∧ evidenceId ≤ s.evidenceCounter then
    if (s.evidence evidenceId).status = EvidenceStatus.NONE then
      .error "Evidence not registered"
    else
      .ok ()
  else
    .error "Evidence does not exist"

/-- Mirrors `_logCustodyEventInternal`: writes the next custody-log slot,
increments `custodyEventCount` (unchecked, hence mod 2^256) and emits
`CustodyEventLogged`.  `sender` is `msg.sender`, `ts` is `block.timestamp`. -/
def logCustodyEventInternal (sender ts evidenceId action metadataHash : Nat)
    (s : RState) : RState :=
  let ev := s.evidence evidenceId
  let eventIndex := ev.custodyEventCount
  { s with
    custodyLog := fun i j =>
      if i = evidenceId ∧ j = eventIndex then
        { handler := sender, action := action, timestamp := ts,
          metadataHash := metadataHash }
      else s.custodyLog i j,
    evidence := fun i =>
      if i = evidenceId then
        { ev with custodyEventCount := (ev.custodyEventCount + 1) % UINT256_MOD }
      else s.evidence i,
    events := s.events ++
      [LogEvent.CustodyEventLogged evidenceId sender action eventIndex ts] }

/-- Mirrors `registerEvidence`: validates the hash, the case id and
uniqueness, allocates the next id (unchecked increment), stores the
record with `status = REGISTERED` and `custodyEventCount = 0`, marks the
hash registered, emits `EvidenceRegistered`, then logs the automatic
COLLECTED event through `_logCustodyEventInternal` before returning. -/
def registerEvidence (sender ts evidenceHash : Nat) (caseId : String)
    (s : RState) : Except String (RState × Nat) :=
  if evidenceHash = 0 then .error "Invalid evidence hash"
  else if caseId = "" then .error "Case ID required"
  else if s.hashRegistered evidenceHash then .error "Evidence hash already registered"
  else
    let counter := (s.evidenceCounter + 1) % UINT256_MOD
    let evidenceId := counter
    let s1 : RState :=
      { s with
        evidenceCounter := counter,
        evidence := fun i =>
          if i = evidenceId then
            { evidenceHash := evidenceHash, caseId := caseId,
              collector := sender, timestamp := ts,
              status := .REGISTERED, custodyEventCount := 0 }
          else s.evidence i,
        hashRegistered := fun h =>
          if h = evidenceHash then true else s.hashRegistered h,
        events := s.events ++
          [LogEvent.EvidenceRegistered evidenceId evidenceHash caseId sender ts] }
    .ok (logCustodyEventInternal sender ts evidenceId ACTION_COLLECTED 0 s1,
         evidenceId)

/-- Mirrors `logCustodyEvent`: existence modifier, then internal log with
zero metadata. -/
def logCustodyEvent (sender ts evidenceId action : Nat) (s : RState) :
    Except String RState :=
  match requireExists evidenceId s with
  | .error e => .error e
  | .ok _ => .ok (logCustodyEventInternal sender ts evidenceId action 0 s)

/-- Mirrors `logCustodyEventWithMetadata`: existence modifier, then
`require(metadataHash != bytes32(0))`, then internal log. -/
def logCustodyEventWithMetadata (sender ts evidenceId action metadataHash : Nat)
    (s : RState) : Except String RState :=
  match requireExists evidenceId s with
  | .error e => .error e
  | .ok _ =>
    if metadataHash = 0 then .error "Metadata hash required"
    else .ok (logCustodyEventInternal sender ts evidenceId action metadataHash s)

/-- Mirrors `verifyEvidence`: existence modifier, nonzero submitted hash,
then compare with the stored hash.  On a match: status becomes VERIFIED, a
VERIFIED custody event carrying the submitted hash is logged, and
`VerificationPassed` is emitted.  On a mismatch: status becomes FLAGGED
and `TamperDetected` is emitted with both hashes; no custody event is
logged.  Returns the `verified` boolean. -/
def verifyEvidence (sender ts evidenceId submittedHash : Nat) (s : RState) :
    Except String (RState × Bool) :=
  match requireExists evidenceId s with
  | .error e => .error e
  | .ok _ =>
    if submittedHash = 0 then .error "Invalid submitted hash"
    else
      let ev := s.evidence evidenceId
      let expectedHash := ev.evidenceHash
      if expectedHash = submittedHash then
        let s1 : RState :=
          { s with evidence := fun i =>
              if i = evidenceId then { ev with status := .VERIFIED }
              else s.evidence i }
        let s2 := logCustodyEventInternal sender ts evidenceId ACTION_VERIFIED
            submittedHash s1
        .ok ({ s2 with events := s2.events ++
                [LogEvent.VerificationPassed evidenceId sender ts] }, true)
      else
        let s1 : RState :=
          { s with
            evidence := fun i =>
              if i = evidenceId then { ev with status := .FLAGGED }
              else s.evidence i,
            events := s.events ++
              [LogEvent.TamperDetected evidenceId sender expectedHash
                submittedHash ts] }
        .ok (s1, false)

/-- Mirrors `registerAsVerifier`. -/
def registerAsVerifier (sender : Nat) (s : RState) : RState :=
  { s with isRegisteredVerifier := fun a =>
      if a = sender then true else s.isRegisteredVerifier a }

/-- Mirrors `attestVerification`: existence modifier, registered-verifier
check, duplicate scan over the attestation array (the source loop reverts
on the first entry with the same verifier, i.e. exactly when some entry
has this verifier), then push and emit. -/
def attestVerification (sender ts evidenceId : Nat) (verified : Bool)
    (s : RState) : Except String RState :=
  match requireExists evidenceId s with
  | .error e => .error e
  | .ok _ =>
    if s.isRegisteredVerifier sender = false then .error "Not registered verifier"
    else if (s.attestations evidenceId).any (fun a => a.verifier = sender) then
      .error "Already attested"
    else
      .ok { s with
        attestations := fun i =>
          if i = evidenceId then
            s.attestations evidenceId ++
              [{ verifier := sender, verified := verified, timestamp := ts }]
          else s.attestations i,
        events := s.events ++
          [LogEvent.VerificationAttested evidenceId sender verified ts] }

/-- Mirrors the view `getCustodyEventCount`. -/
def getCustodyEventCount (evidenceId : Nat) (s : RState) : Except String Nat :=
  match requireExists evidenceId s with
  | .error e => .error e
  | .ok _ => .ok (s.evidence evidenceId).custodyEventCount

/-- Mirrors the view `getCustodyEvent`, including its bounds `require`. -/
def getCustodyEvent (evidenceId eventIndex : Nat) (s : RState) :
    Except String CustodyEvent :=
  match requireExists evidenceId s with
  | .error e => .error e
  | .ok _ =>
    if eventIndex < (s.evidence evidenceId).custodyEventCount then
      .ok (s.custodyLog evidenceId eventIndex)
    else .error "Event index out of bounds"

/-- Mirrors the view `getEvidenceCount`. -/
def getEvidenceCount (s : RState) : Nat := s.evidenceCounter

/-- Mirrors the view `isHashRegistered`. -/
def isHashRegistered (evidenceHash : Nat) (s : RState) : Bool :=
  s.hashRegistered evidenceHash

/-- Mirrors the pure helper `getActionHash(string)` of the contract. -/
def getActionHash (actionName : String) : Nat := keccak256 actionName

/-- One external state-mutating call to the contract, with its caller and
block timestamp. -/
inductive Op where
  | register (sender ts evidenceHash : Nat) (caseId : String)
  | logEvent (sender ts evidenceId action : Nat)
  | logEventMeta (sender ts evidenceId action metadataHash : Nat)
  | verify (sender ts evidenceId submittedHash : Nat)
  | registerVerifier (sender : Nat)
  | attest (sender ts evidenceId : Nat) (verified : Bool)

/-- Applies one external call to the state; `error` models a revert, which
leaves the state unchanged. -/
def applyOp (op : Op) (s : RState) : Except String RState :=
  match op with
  | .register sender ts evidenceHash caseId =>
    (registerEvidence sender ts evidenceHash caseId s).map Prod.fst
  | .logEvent sender ts evidenceId action =>
    logCustodyEvent sender ts evidenceId action s
  | .logEventMeta sender ts evidenceId action metadataHash =>
    logCustodyEventWithMetadata sender ts evidenceId action metadataHash s
  | .verify sender ts evidenceId submittedHash =>
    (verifyEvidence sender ts evidenceId submittedHash s).map Prod.fst
  | .registerVerifier sender => .ok (registerAsVerifier sender s)
  | .attest sender ts evidenceId verified =>
    attestVerification sender ts evidenceId verified s

end EvidenceRegistry

namespace PolicyEngine

/-- Mirrors the module-level `defaultPolicy` object of
`backend/services/policyEngine.js`. -/
structure Policy where
  allowedRoles : List String
  requiredOrder : List String
  allowedSkips : List String
  maxAccessDurationHours : Nat
  noParallelAccess : Bool
deriving DecidableEq, Repr

/-- The hard-coded default policy. -/
def defaultPolicy : Policy :=
  { allowedRoles := ["COLLECTOR", "FORENSIC_ANALYST", "DETECTIVE", "COURT_CLERK"],
    requiredOrder := ["COLLECTED", "SEALED", "ANALYZED", "VERIFIED"],
    allowedSkips := [],
    maxAccessDurationHours := 48,
    noParallelAccess := true }

/-- JavaScript `Array.prototype.indexOf`: index of the first occurrence,
or -1 when absent. -/
def jsIndexOfAux (x : String) : List String → Int → Int
  | [], _ => -1
  | y :: ys, i => if y = x then i else jsIndexOfAux x ys (i + 1)

/-- JavaScript `order.indexOf(x)`. -/
def jsIndexOf (l : List String) (x : String) : Int := jsIndexOfAux x l 0

/-- JavaScript `l.slice(a, b)` for the nonnegative indices the engine
passes (both call-site arguments are ≥ 0 because `a = currentIndex + 1`
with `currentIndex ≥ -1` and `b = nextIndex ≥ 0` on that path, so the
negative-index-from-the-end behaviour of `slice` never arises). -/
def jsSlice (l : List String) (a b : Int) : List String :=
  (l.take b.toNat).drop a.toNat

/-- Result of `_validateOrder`: `{valid: true}` or
`{valid: false, reason}`. -/
inductive OrderResult where
  | valid
  | invalid (reason : String)
deriving DecidableEq, Repr

/-- Mirrors `_validateOrder(currentStep, nextAction, policy)`: same-step
repeats and actions outside `requiredOrder` are accepted; skipping over a
required step that is not in `allowedSkips` is rejected with the list of
invalid skips; moving backward in the order is rejected. -/
def validateOrder (currentStep nextAction : String) (policy : Policy) :
    OrderResult :=
  let order := policy.requiredOrder
  let currentIndex := jsIndexOf order currentStep
  let nextIndex := jsIndexOf order nextAction
  let skipped := jsSlice order (currentIndex + 1) nextIndex
  let invalidSkips := skipped.filter (fun x => policy.allowedSkips.contains x = false)
  if currentStep = nextAction then .valid
  else if nextIndex = -1 then .valid
  else if nextIndex > currentIndex + 1 ∧ invalidSkips ≠ [] then
    .invalid ("Cannot skip required steps: " ++ String.intercalate ", " invalidSkips)
  else if nextIndex < currentIndex ∧ nextIndex ≠ -1 then
    .invalid "Cannot move backward in custody chain"
  else .valid

/-- A `{handler, since}` entry of the `activeCheckouts` map; `since` is a
millisecond timestamp from `Date.now()`. -/
structure Checkout where
  handler : String
  since : Int
deriving DecidableEq, Repr

/-- The module-level mutable state of the policy engine: the
`custodyState` and `activeCheckouts` maps. -/
structure PolicyState where
  custodyState : Nat → Option String
  activeCheckouts : Nat → Option Checkout

/-- Engine state at module load: both maps empty. -/
def initialPolicyState : PolicyState :=
  { custodyState := fun _ => none, activeCheckouts := fun _ => none }

/-- Outcome of `validateCustodyAction`: `{valid: true}` or
`{valid: false, violation, details}`. -/
inductive PolicyDecision where
  | valid
  | violation (vtype details : String)
deriving DecidableEq, Repr

/-- Mirrors `validateCustodyAction(evidenceId, action, handler)` with the
module state and `Date.now()` made explicit; returns the decision and the
updated state (the maps are only written on acceptance).  The
access-duration test `(now - since) / 3600000 > maxAccessDurationHours`
is evaluated here as the exact integer comparison
`now - since > maxAccessDurationHours * 3600000`; the two agree because
millisecond differences are integers below 2^53 (exactly representable)
and the float quotient rounds far too finely to cross the threshold.  The
held-hours figure interpolated into the duration detail string
(`hoursHeld.toFixed(1)`) is elided from the rendered detail. -/
def validateCustodyAction (st : PolicyState) (now : Int) (evidenceId : Nat)
    (action handler : String) : PolicyDecision × PolicyState :=
  let policy := defaultPolicy
  let currentStep := (st.custodyState evidenceId).getD "NONE"
  let orderRes :=
    if currentStep ≠ "NONE" then validateOrder currentStep action policy
    else OrderResult.valid
  match orderRes with
  | .invalid reason => (.violation "INVALID_CUSTODY_ORDER" reason, st)
  | .valid =>
    let parallelHolder :=
      if policy.noParallelAccess ∧ action ≠ "COLLECTED" then
        match st.activeCheckouts evidenceId with
        | some c => if c.handler ≠ handler then some c.handler else none
        | none => none
      else none
    match parallelHolder with
    | some holder =>
      (.violation "PARALLEL_ACCESS_VIOLATION"
        ("Evidence currently held by " ++ holder), st)
    | none =>
      let durationExceeded : Bool :=
        match st.activeCheckouts evidenceId with
        | some c => decide (now - c.since > (policy.maxAccessDurationHours : Int) * 3600000)
        | none => false
      if durationExceeded then
        (.violation "ACCESS_DURATION_EXCEEDED"
          ("Max duration " ++ toString policy.maxAccessDurationHours ++
            "h exceeded"), st)
      else
        let st1 : PolicyState :=
          { st with custodyState := fun i =>
              if i = evidenceId then some action else st.custodyState i }
        let st2 : PolicyState :=
          if action = "ACCESSED" ∨ action = "TRANSFERRED" then
            { st1 with activeCheckouts := fun i =>
                if i = evidenceId then some { handler := handler, since := now }
                else st1.activeCheckouts i }
          else st1
        (.valid, st2)

/-- Mirrors `releaseCheckout(evidenceId)`: deletes the checkout entry. -/
def releaseCheckout (evidenceId : Nat) (st : PolicyState) : PolicyState :=
  { st with activeCheckouts := fun i =>
      if i = evidenceId then none else st.activeCheckouts i }

end PolicyEngine

namespace BlockchainService

/-- The hard-coded lookup list inside `getActionName` of the blockchain
service (`src/unnamed/part_004`). -/
def canonicalActions : List String :=
  ["COLLECTED", "ACCESSED", "TRANSFERRED", "VERIFIED", "ANALYZED"]

/-- Mirrors `getActionName(actionHash)`: walks the hard-coded action list,
hashes each name through the contract helper `getActionHash`, returns the
first name whose hash matches, else the string UNKNOWN. -/
def getActionName (actionHash : Nat) : String :=
  match canonicalActions.find?
      (fun a => EvidenceRegistry.getActionHash a = actionHash) with
  | some a => a
  | none => "UNKNOWN"

end BlockchainService

namespace EvidenceRegistry

/-- Characterization of the `evidenceExists` modifier succeeding. -/
theorem requireExists_ok (evidenceId : Nat) (s : RState) :
    requireExists evidenceId s = .ok () ↔
      ((0 < evidenceId ∧ evidenceId ≤ s.evidenceCounter) ∧
        (s.evidence evidenceId).status ≠ .NONE) := by
  unfold requireExists
  split
  case isTrue h =>
    split
    case isTrue h2 => simp [h, h2]
    case isFalse h2 => simp [h, h2]
  case isFalse h => simp [h]

/-- A custody-log slot changed by `_logCustodyEventInternal` holds exactly
the event just written. -/
theorem custodyLog_update_cases (sender ts evidenceId action meta : Nat) (s : RState)
    (i j : Nat)
    (hne : (logCustodyEventInternal sender ts evidenceId action meta s).custodyLog i j ≠
      s.custodyLog i j) :
    (logCustodyEventInternal sender ts evidenceId action meta s).custodyLog i j =
      { handler := sender, action := action, timestamp := ts, metadataHash := meta } := by
  unfold logCustodyEventInternal at *
  by_cases hij : i = evidenceId ∧ j = (s.evidence evidenceId).custodyEventCount
  · simp only [if_pos hij]
  · simp only [if_neg hij] at hne
    exact absurd rfl hne

/-- Fingerprint uniqueness invariant: every live Evidence record has its
hash marked in `_hashRegistered`, and no two live records share a hash. -/
def FingerprintInv (s : RState) : Prop :=
  (∀ i, (s.evidence i).status ≠ .NONE →
    s.hashRegistered (s.evidence i).evidenceHash = true) ∧
  (∀ i j, (s.evidence i).status ≠ .NONE → (s.evidence j).status ≠ .NONE →
    (s.evidence i).evidenceHash = (s.evidence j).evidenceHash → i = j)

/-- Everything a successful `registerEvidence` call guarantees about the
pre-state and the post-state. -/
theorem register_ok_elim (sender ts f : Nat) (cid : String) (s s2 : RState)
    (evidenceId : Nat)
    (h : registerEvidence sender ts f cid s = .ok (s2, evidenceId)) :
    f ≠ 0 ∧ cid ≠ "" ∧ s.hashRegistered f = false ∧
    evidenceId = (s.evidenceCounter + 1) % UINT256_MOD ∧
    (∀ i, i ≠ evidenceId → s2.evidence i = s.evidence i) ∧
    (s2.evidence evidenceId).evidenceHash = f ∧
    (s2.evidence evidenceId).status = .REGISTERED ∧
    (∀ x, x ≠ f → s2.hashRegistered x = s.hashRegistered x) ∧
    s2.hashRegistered f = true ∧
    s2.attestations = s.attestations ∧
    s2.isRegisteredVerifier = s.isRegisteredVerifier := by
  unfold registerEvidence at h
  by_cases h0 : f = 0
  · rw [if_pos h0] at h; exact Except.noConfusion h
  rw [if_neg h0] at h
  by_cases hcid : cid = ""
  · rw [if_pos hcid] at h; exact Except.noConfusion h
  rw [if_neg hcid] at h
  by_cases hreg : s.hashRegistered f = true
  · rw [if_pos hreg] at h; exact Except.noConfusion h
  rw [if_neg hreg] at h
  have hid : evidenceId = (s.evidenceCounter + 1) % UINT256_MOD := by
    have := congrArg (fun x => match x with
      | Except.ok (p : RState × Nat) => p.2
      | Except.error _ => 0) h
    simpa using this.symm
  have hs2 : s2 = logCustodyEventInternal sender ts ((s.evidenceCounter + 1) % UINT256_MOD)
      ACTION_COLLECTED 0
      { s with
        evidenceCounter := (s.evidenceCounter + 1) % UINT256_MOD,
        evidence := fun i =>
          if i = (s.evidenceCounter + 1) % UINT256_MOD then
            { evidenceHash := f, caseId := cid, collector := sender, timestamp := ts,
              status := .REGISTERED, custodyEventCount := 0 }
          else s.evidence i,
        hashRegistered := fun x => if x = f then true else s.hashRegistered x,
        events := s.events ++
          [LogEvent.EvidenceRegistered ((s.evidenceCounter + 1) % UINT256_MOD) f cid
            sender ts] } := by
    have := congrArg (fun x => match x with
      | Except.ok (p : RState × Nat) => p.1
      | Except.error _ => s) h
    simpa using this.symm
  subst hid
  subst hs2
  refine ⟨h0, hcid, by simpa using hreg, rfl, ?_, ?_, ?_, ?_, ?_, rfl, rfl⟩
  · intro i hi
    simp [logCustodyEventInternal, hi]
  · simp [logCustodyEventInternal]
  · simp [logCustodyEventInternal]
  · intro x hx
    simp [logCustodyEventInternal, hx]
  · simp [logCustodyEventInternal]

/-- Transport of the uniqueness invariant across a step that keeps every
hash and never revives a dead record. -/
theorem inv_transport (s s2 : RState)
    (hev : ∀ i, (s2.evidence i).evidenceHash = (s.evidence i).evidenceHash ∧
      ((s2.evidence i).status ≠ .NONE → (s.evidence i).status ≠ .NONE))
    (hhr : ∀ x, s.hashRegistered x = true → s2.hashRegistered x = true) :
    FingerprintInv s → FingerprintInv s2 := by
  rintro ⟨hc, hu⟩
  constructor
  · intro i hi
    rw [(hev i).1]
    exact hhr _ (hc i ((hev i).2 hi))
  · intro i j hi hj heq
    exact hu i j ((hev i).2 hi) ((hev j).2 hj)
      (by rw [← (hev i).1, ← (hev j).1, heq])

/-- Every successful external call preserves registered hashes, registered
verifiers and recorded attestations, and preserves the fingerprint
uniqueness invariant. -/
theorem applyOp_step (op : Op) (s s2 : RState) (h : applyOp op s = .ok s2) :
    (∀ x, s.hashRegistered x = true → s2.hashRegistered x = true) ∧
    (∀ x, s.isRegisteredVerifier x = true → s2.isRegisteredVerifier x = true) ∧
    (∀ i a, a ∈ s.attestations i → a ∈ s2.attestations i) ∧
    (FingerprintInv s → FingerprintInv s2) := by
  cases op with
  | register a b c d =>
    simp only [applyOp] at h
    cases hr : registerEvidence a b c d s with
    | error msg => rw [hr] at h; exact Except.noConfusion h
    | ok p =>
      rw [hr] at h
      simp only [Except.map] at h
      have hp : p.1 = s2 := by cases h; rfl
      obtain ⟨hf0, hcid, hregf, hid, hother, hhash, hstat, hhr_other, hhr_f, hatt,
        hver⟩ := register_ok_elim a b c d s p.1 p.2 (by rw [hr])
      subst hp
      refine ⟨?_, ?_, ?_, ?_⟩
      · intro x hx
        by_cases hxf : x = c
        · subst hxf; exact hhr_f
        · rw [hhr_other x hxf]; exact hx
      · intro x hx; rw [hver]; exact hx
      · intro i a2 ha2; rw [hatt]; exact ha2
      · rintro ⟨hcons, huniq⟩
        constructor
        · intro i hi
          by_cases hip : i = p.2
          · subst hip; rw [hhash]; exact hhr_f
          · rw [hother i hip] at hi ⊢
            have := hcons i hi
            by_cases hxf : (s.evidence i).evidenceHash = c
            · rw [hxf]; exact hhr_f
            · rw [hhr_other _ hxf]; exact this
        · intro i j hi hj heq
          by_cases hip : i = p.2 <;> by_cases hjp : j = p.2
          · rw [hip, hjp]
          · exfalso
            rw [hother j hjp] at hj
            rw [hip] at heq
            rw [hhash, hother j hjp] at heq
            have := hcons j hj
            rw [← heq] at this
            rw [hregf] at this
            exact Bool.noConfusion this
          · exfalso
            rw [hother i hip] at hi
            rw [hjp] at heq
            rw [hhash, hother i hip] at heq
            have := hcons i hi
            rw [heq] at this
            rw [hregf] at this
            exact Bool.noConfusion this
          · rw [hother i hip] at hi heq
            rw [hother j hjp] at hj heq
            exact huniq i j hi hj heq
  | logEvent a b c d =>
    simp only [applyOp] at h
    unfold logCustodyEvent at h
    cases hre : requireExists c s with
    | error msg => rw [hre] at h; exact Except.noConfusion h
    | ok u =>
      rw [hre] at h
      have hs2 : s2 = logCustodyEventInternal a b c d 0 s := by cases h; rfl
      subst hs2
      refine ⟨fun x hx => hx, fun x hx => hx, fun i a2 ha2 => ha2, ?_⟩
      apply inv_transport
      · intro i
        by_cases hi : i = c <;> simp [logCustodyEventInternal, hi]
      · intro x hx; exact hx
  | logEventMeta a b c d e =>
    simp only [applyOp] at h
    unfold logCustodyEventWithMetadata at h
    cases hre : requireExists c s with
    | error msg => rw [hre] at h; exact Except.noConfusion h
    | ok u =>
      rw [hre] at h
      by_cases hm : e = 0
      · rw [if_pos hm] at h; exact Except.noConfusion h
      · rw [if_neg hm] at h
        have hs2 : s2 = logCustodyEventInternal a b c d e s := by cases h; rfl
        subst hs2
        refine ⟨fun x hx => hx, fun x hx => hx, fun i a2 ha2 => ha2, ?_⟩
        apply inv_transport
        · intro i
          by_cases hi : i = c <;> simp [logCustodyEventInternal, hi]
        · intro x hx; exact hx
  | verify a b c d =>
    simp only [applyOp] at h
    unfold verifyEvidence at h
    cases hre : requireExists c s with
    | error msg => rw [hre] at h; exact Except.noConfusion h
    | ok u =>
      rw [hre] at h
      have hexists : (s.evidence c).status ≠ .NONE := by
        cases u
        exact ((requireExists_ok c s).mp hre).2
      by_cases hd0 : d = 0
      · rw [if_pos hd0] at h; exact Except.noConfusion h
      · rw [if_neg hd0] at h
        by_cases hmatch : (s.evidence c).evidenceHash = d
        · rw [if_pos hmatch] at h
          simp only [Except.map] at h
          have hs2 : s2 = { logCustodyEventInternal a b c ACTION_VERIFIED d
              { s with evidence := fun i =>
                  if i = c then { s.evidence c with status := .VERIFIED }
                  else s.evidence i } with
              events := (logCustodyEventInternal a b c ACTION_VERIFIED d
                { s with evidence := fun i =>
                    if i = c then { s.evidence c with status := .VERIFIED }
                    else s.evidence i }).events ++
                [LogEvent.VerificationPassed c a b] } := by
            cases h; rfl
          subst hs2
          refine ⟨fun x hx => hx, fun x hx => hx, fun i a2 ha2 => ha2, ?_⟩
          apply inv_transport
          · intro i
            by_cases hi : i = c
            · subst hi
              constructor
              · simp [logCustodyEventInternal]
              · intro _; exact hexists
            · simp [logCustodyEventInternal, hi]
          · intro x hx; exact hx
        · rw [if_neg hmatch] at h
          simp only [Except.map] at h
          have hs2 : s2 = { s with
              evidence := fun i =>
                if i = c then { s.evidence c with status := .FLAGGED }
                else s.evidence i,
              events := s.events ++
                [LogEvent.TamperDetected c a (s.evidence c).evidenceHash d b] } := by
            cases h; rfl
          subst hs2
          refine ⟨fun x hx => hx, fun x hx => hx, fun i a2 ha2 => ha2, ?_⟩
          apply inv_transport
          · intro i
            by_cases hi : i = c
            · subst hi
              constructor
              · simp
              · intro _; exact hexists
            · simp [hi]
          · intro x hx; exact hx
  | registerVerifier a =>
    simp only [applyOp] at h
    unfold registerAsVerifier at h
    have hs2 : s2 = { s with isRegisteredVerifier := fun x =>
        if x = a then true else s.isRegisteredVerifier x } := by cases h; rfl
    subst hs2
    refine ⟨fun x hx => hx, ?_, fun i a2 ha2 => ha2, ?_⟩
    · intro x hx
      by_cases hxa : x = a <;> simp [hxa, hx]
    · apply inv_transport
      · intro i; exact ⟨rfl, fun hx => hx⟩
      · intro x hx; exact hx
  | attest a b c d =>
    simp only [applyOp] at h
    unfold attestVerification at h
    cases hre : requireExists c s with
    | error msg => rw [hre] at h; exact Except.noConfusion h
    | ok u =>
      rw [hre] at h
      by_cases hreg : s.isRegisteredVerifier a = false
      · rw [if_pos hreg] at h; exact Except.noConfusion h
      · rw [if_neg hreg] at h
        by_cases hdup : (s.attestations c).any (fun x => x.verifier = a) = true
        · rw [if_pos hdup] at h; exact Except.noConfusion h
        · rw [if_neg hdup] at h
          have hs2 : s2 = { s with
              attestations := fun i =>
                if i = c then s.attestations c ++
                  [{ verifier := a, verified := d, timestamp := b }]
                else s.attestations i,
              events := s.events ++
                [LogEvent.VerificationAttested c a d b] } := by cases h; rfl
          subst hs2
          refine ⟨fun x hx => hx, fun x hx => hx, ?_, ?_⟩
          · intro i a2 ha2
            by_cases hi : i = c
            · subst hi
              simp only [if_pos rfl]
              exact List.mem_append_left _ ha2
            · simp only [if_neg hi]
              exact ha2
          · apply inv_transport
            · intro i; exact ⟨rfl, fun hx => hx⟩
            · intro x hx; exact hx

/-- A state is reachable from another by a sequence of successful external
calls. -/
def Reachable (s s2 : RState) : Prop :=
  Relation.ReflTransGen (fun a b => ∃ op, applyOp op a = .ok b) s s2

/-- The monotone facts of `applyOp_step`, carried along any sequence of
successful calls. -/
theorem reachable_mono (s s3 : RState) (h : Reachable s s3) :
    (∀ x, s.hashRegistered x = true → s3.hashRegistered x = true) ∧
    (∀ x, s.isRegisteredVerifier x = true → s3.isRegisteredVerifier x = true) ∧
    (∀ i a, a ∈ s.attestations i → a ∈ s3.attestations i) ∧
    (FingerprintInv s → FingerprintInv s3) := by
  induction h with
  | refl => exact ⟨fun _ hx => hx, fun _ hx => hx, fun _ _ ha => ha, id⟩
  | tail hab hbc ih =>
    obtain ⟨op, hop⟩ := hbc
    obtain ⟨m1, m2, m3, m4⟩ := applyOp_step op _ _ hop
    exact ⟨fun x hx => m1 x (ih.1 x hx),
      fun x hx => m2 x (ih.2.1 x hx),
      fun i a ha => m3 i a (ih.2.2.1 i a ha),
      fun hi => m4 (ih.2.2.2 hi)⟩

/-- A verification call whose submitted hash equals the stored hash
returns `true`. -/
theorem verify_match_true (sender ts evidenceId submittedHash : Nat) (s : RState)
    (hex : requireExists evidenceId s = .ok ())
    (hnz : submittedHash ≠ 0)
    (heq : (s.evidence evidenceId).evidenceHash = submittedHash) :
    ∃ s3, verifyEvidence sender ts evidenceId submittedHash s = .ok (s3, true) := by
  unfold verifyEvidence
  rw [hex, if_neg hnz, if_pos heq]
  exact ⟨_, rfl⟩

/-- Everything a successful `attestVerification` call guarantees. -/
theorem attest_ok_elim (sender ts evidenceId : Nat) (v : Bool) (s s2 : RState)
    (h : attestVerification sender ts evidenceId v s = .ok s2) :
    s.isRegisteredVerifier sender = true ∧
    s2.attestations evidenceId = s.attestations evidenceId ++
      [{ verifier := sender, verified := v, timestamp := ts }] ∧
    (∀ j, j ≠ evidenceId → s2.attestations j = s.attestations j) ∧
    s2.isRegisteredVerifier = s.isRegisteredVerifier ∧
    s2.evidenceCounter = s.evidenceCounter ∧
    (∀ i, s2.evidence i = s.evidence i) := by
  unfold attestVerification at h
  cases hre : requireExists evidenceId s with
  | error msg => rw [hre] at h; exact Except.noConfusion h
  | ok u =>
    rw [hre] at h
    by_cases hreg : s.isRegisteredVerifier sender = false
    · rw [if_pos hreg] at h; exact Except.noConfusion h
    · rw [if_neg hreg] at h
      by_cases hdup : (s.attestations evidenceId).any (fun x => x.verifier = sender) = true
      · rw [if_pos hdup] at h; exact Except.noConfusion h
      · rw [if_neg hdup] at h
        have hs2 : s2 = { s with
            attestations := fun i =>
              if i = evidenceId then s.attestations evidenceId ++
                [{ verifier := sender, verified := v, timestamp := ts }]
              else s.attestations i,
            events := s.events ++
              [LogEvent.VerificationAttested evidenceId sender v ts] } := by
          cases h; rfl
        subst hs2
        refine ⟨by simpa using hreg, by simp, ?_, rfl, rfl, fun i => rfl⟩
        intro j hj
        simp [hj]

/-- An attest call by a verifier that already has an attestation on file
for this evidence reverts in the duplicate-scan loop. -/
theorem attest_duplicate_fails (sender ts evidenceId : Nat) (v : Bool) (s : RState)
    (hex : requireExists evidenceId s = .ok ())
    (hreg : s.isRegisteredVerifier sender = true)
    (hdup : ∃ a ∈ s.attestations evidenceId, a.verifier = sender) :
    attestVerification sender ts evidenceId v s = .error "Already attested" := by
  unfold attestVerification
  rw [hex]
  rw [if_neg (by simp [hreg])]
  rw [if_pos ?hany]
  case hany =>
    obtain ⟨a, ha, hav⟩ := hdup
    exact List.any_eq_true.mpr ⟨a, ha, by simp [hav]⟩

/-- An attest call by an unregistered verifier reverts. -/
theorem attest_unregistered_fails (sender ts evidenceId : Nat) (v : Bool) (s : RState)
    (hex : requireExists evidenceId s = .ok ())
    (hreg : s.isRegisteredVerifier sender = false) :
    attestVerification sender ts evidenceId v s = .error "Not registered verifier" := by
  unfold attestVerification
  rw [hex]
  rw [if_pos hreg]

/-- Once a verifier has attested for an evidence id, every later attest
call by the same verifier for that id fails, whatever happened in between
and whatever boolean is passed. -/
theorem attest_once (sender ts evidenceId : Nat) (v : Bool) (s s2 s3 : RState)
    (h : attestVerification sender ts evidenceId v s = .ok s2)
    (hre : Reachable s2 s3)
    (hex3 : requireExists evidenceId s3 = .ok ()) :
    ∀ ts2 : Nat, ∀ v2 : Bool,
      attestVerification sender ts2 evidenceId v2 s3 = .error "Already attested" := by
  obtain ⟨hreg, happ, _, hvs, _, _⟩ := attest_ok_elim sender ts evidenceId v s s2 h
  have hmem2 : ({ verifier := sender, verified := v, timestamp := ts } : Attestation) ∈
      s2.attestations evidenceId := by
    rw [happ]
    exact List.mem_append_right _ (List.mem_singleton.mpr rfl)
  have hreg2 : s2.isRegisteredVerifier sender = true := by
    rw [hvs]; exact hreg
  obtain ⟨_, m2, m3, _⟩ := reachable_mono s2 s3 hre
  intro ts2 v2
  exact attest_duplicate_fails sender ts2 evidenceId v2 s3 hex3 (m2 sender hreg2)
    ⟨_, m3 evidenceId _ hmem2, rfl⟩

/-- Registration of a fingerprint already marked registered reverts with
the duplicate message (given the two argument checks that run first pass). -/
theorem register_duplicate_fails (s : RState) (f : Nat)
    (hr : s.hashRegistered f = true) (hf : f ≠ 0) :
    ∀ sender ts : Nat, ∀ cid : String, cid ≠ "" →
      registerEvidence sender ts f cid s = .error "Evidence hash already registered" := by
  intro sender ts cid hcid
  unfold registerEvidence
  rw [if_neg hf, if_neg hcid, if_pos (by simp [hr])]

/-- Once a fingerprint is successfully registered, every later
registration attempt with the same fingerprint fails, whatever happened
in between. -/
theorem register_once (sender ts f : Nat) (cid : String) (s s2 : RState)
    (evidenceId : Nat) (s3 : RState)
    (h : registerEvidence sender ts f cid s = .ok (s2, evidenceId))
    (hre : Reachable s2 s3) :
    ∀ sender2 ts2 : Nat, ∀ cid2 : String, cid2 ≠ "" →
      registerEvidence sender2 ts2 f cid2 s3 = .error "Evidence hash already registered" := by
  obtain ⟨hf0, _, _, _, _, _, _, _, hhr_f, _, _⟩ :=
    register_ok_elim sender ts f cid s s2 evidenceId h
  obtain ⟨m1, _, _, _⟩ := reachable_mono s2 s3 hre
  intro sender2 ts2 cid2 hcid2
  exact register_duplicate_fails s3 f (m1 f hhr_f) hf0 sender2 ts2 cid2 hcid2

/-- The freshly deployed contract satisfies the uniqueness invariant. -/
theorem initialState_inv : FingerprintInv initialState := by
  constructor
  · intro i hi
    exact absurd rfl hi
  · intro i j hi _ _
    exact absurd rfl hi

end EvidenceRegistry

namespace EvidenceRegistry

/-- C1: every successful `registerEvidence` call returns a state in which
the new item has status REGISTERED, `getCustodyEventCount` is 1, and
custody event 0 is a COLLECTED event whose handler is the caller
(collector) and whose metadataHash is the zero value.  The record and the
initial event are written by the same call, so no caller ever observes
an intermediate state with the record present and an event count of 0
(reverts discard all writes).  The three preconditions are exactly the
calls that succeed; the no-wrap bound keeps the unchecked id increment
below 2^256, which holds in every state a real chain can reach. -/
theorem registerEvidence_atomic (sender ts evidenceHash : Nat) (caseId : String)
    (s : RState)
    (hof : s.evidenceCounter + 1 < UINT256_MOD)
    (hh : evidenceHash ≠ 0) (hc : caseId ≠ "")
    (hr : s.hashRegistered evidenceHash = false) :
    ∃ s2 : RState,
      registerEvidence sender ts evidenceHash caseId s = .ok (s2, s.evidenceCounter + 1) ∧
      (s2.evidence (s.evidenceCounter + 1)).status = .REGISTERED ∧
      getCustodyEventCount (s.evidenceCounter + 1) s2 = .ok 1 ∧
      getCustodyEvent (s.evidenceCounter + 1) 0 s2 =
        .ok { handler := sender, action := ACTION_COLLECTED, timestamp := ts,
              metadataHash := 0 } := by
  have hm : (s.evidenceCounter + 1) % UINT256_MOD = s.evidenceCounter + 1 :=
    Nat.mod_eq_of_lt hof
  have h1 : (0 + 1) % UINT256_MOD = 1 := by
    norm_num [UINT256_MOD]
  unfold registerEvidence
  rw [if_neg hh, if_neg hc, if_neg (by simp [hr])]
  simp only [hm]
  refine ⟨_, rfl, ?_, ?_, ?_⟩
  · simp [logCustodyEventInternal]
  · simp [getCustodyEventCount, requireExists, logCustodyEventInternal, h1]
  · simp [getCustodyEvent, requireExists, logCustodyEventInternal, h1]

/-- Contract state after registering evidence hash 42 under case-1 from
collector 7 at time 100 on a fresh contract; the new id is 1. -/
def registeredState : RState :=
  match registerEvidence 7 100 42 "case-1" initialState with
  | .ok p => p.1
  | .error _ => initialState

/-- C1 witness: the concrete registration on the fresh contract. -/
theorem registerEvidence_atomic_witness :
    ∃ s2 : RState,
      registerEvidence 7 100 42 "case-1" initialState =
        .ok (s2, initialState.evidenceCounter + 1) ∧
      (s2.evidence (initialState.evidenceCounter + 1)).status = .REGISTERED ∧
      getCustodyEventCount (initialState.evidenceCounter + 1) s2 = .ok 1 ∧
      getCustodyEvent (initialState.evidenceCounter + 1) 0 s2 =
        .ok { handler := 7, action := ACTION_COLLECTED, timestamp := 100,
              metadataHash := 0 } :=
  registerEvidence_atomic 7 100 42 "case-1" initialState (by decide) (by decide)
    (by decide) rfl

/-- C2: fingerprint uniqueness.  The fresh contract satisfies the
invariant; every successful call preserves it; a successful registration
marks the fingerprint (necessarily nonzero) as registered; and from the
resulting state, after any further sequence of successful calls, a second
registration with the same fingerprint always reverts with the duplicate
message (a revert returns no state, so the failing call leaves
`getEvidenceCount` and every stored record unchanged by construction). -/
theorem fingerprint_uniqueness :
    FingerprintInv initialState ∧
    (∀ op : Op, ∀ s s2 : RState, applyOp op s = .ok s2 →
      FingerprintInv s → FingerprintInv s2) ∧
    (∀ sender ts f : Nat, ∀ cid : String, ∀ s s2 : RState, ∀ evidenceId : Nat,
      registerEvidence sender ts f cid s = .ok (s2, evidenceId) →
      s2.hashRegistered f = true ∧ f ≠ 0) ∧
    (∀ sender ts f : Nat, ∀ cid : String, ∀ s s2 : RState, ∀ evidenceId : Nat,
      ∀ s3 : RState,
      registerEvidence sender ts f cid s = .ok (s2, evidenceId) →
      Reachable s2 s3 →
      ∀ sender2 ts2 : Nat, ∀ cid2 : String, cid2 ≠ "" →
        registerEvidence sender2 ts2 f cid2 s3 =
          .error "Evidence hash already registered") := by
  refine ⟨initialState_inv, ?_, ?_, ?_⟩
  · intro op s s2 h
    exact (applyOp_step op s s2 h).2.2.2
  · intro sender ts f cid s s2 evidenceId h
    obtain ⟨hf0, _, _, _, _, _, _, _, hhr_f, _, _⟩ :=
      register_ok_elim sender ts f cid s s2 evidenceId h
    exact ⟨hhr_f, hf0⟩
  · intro sender ts f cid s s2 evidenceId s3 h hre
    exact register_once sender ts f cid s s2 evidenceId s3 h hre

/-- C2 witness: on the concrete post-registration state, a second
registration of hash 42 fails with the duplicate error. -/
theorem fingerprint_uniqueness_witness :
    registerEvidence 8 200 42 "case-2" registeredState =
      .error "Evidence hash already registered" :=
  fingerprint_uniqueness.2.2.2 7 100 42 "case-1" initialState registeredState 1
    registeredState (by rfl) Relation.ReflTransGen.refl 8 200 "case-2" (by decide)

/-- C3: a `verifyEvidence` call on an existing item with a nonzero
submitted hash different from the stored hash returns `false`, sets the
status to FLAGGED and emits exactly one TamperDetected notification
carrying the stored and the submitted hash unchanged; the custody log,
the event count, the stored hash, caseId, collector, registration
timestamp, every other record, and all remaining storage are untouched. -/
theorem verifyEvidence_mismatch_flags (sender ts evidenceId submittedHash : Nat)
    (s : RState)
    (hex : requireExists evidenceId s = .ok ())
    (hnz : submittedHash ≠ 0)
    (hne : (s.evidence evidenceId).evidenceHash ≠ submittedHash) :
    ∃ s1 : RState,
      verifyEvidence sender ts evidenceId submittedHash s = .ok (s1, false) ∧
      (s1.evidence evidenceId).status = .FLAGGED ∧
      s1.events = s.events ++
        [LogEvent.TamperDetected evidenceId sender
          (s.evidence evidenceId).evidenceHash submittedHash ts] ∧
      s1.custodyLog = s.custodyLog ∧
      (s1.evidence evidenceId).custodyEventCount =
        (s.evidence evidenceId).custodyEventCount ∧
      (s1.evidence evidenceId).evidenceHash = (s.evidence evidenceId).evidenceHash ∧
      (s1.evidence evidenceId).caseId = (s.evidence evidenceId).caseId ∧
      (s1.evidence evidenceId).collector = (s.evidence evidenceId).collector ∧
      (s1.evidence evidenceId).timestamp = (s.evidence evidenceId).timestamp ∧
      (∀ j, j ≠ evidenceId → s1.evidence j = s.evidence j) ∧
      s1.evidenceCounter = s.evidenceCounter ∧
      s1.hashRegistered = s.hashRegistered ∧
      s1.attestations = s.attestations ∧
      s1.isRegisteredVerifier = s.isRegisteredVerifier := by
  unfold verifyEvidence
  rw [hex]
  rw [if_neg hnz, if_neg hne]
  refine ⟨_, rfl, ?_, ?_, ?_, ?_, ?_, ?_, ?_, ?_, ?_, ?_, ?_, ?_, ?_⟩
  all_goals try rfl
  all_goals try (intro j hj; simp [hj])
  all_goals simp

/-- C3 witness: mismatched verification of item 1 with hash 43 on the
concrete registered state. -/
theorem verifyEvidence_mismatch_flags_witness :
    ∃ s1 : RState,
      verifyEvidence 9 300 1 43 registeredState = .ok (s1, false) ∧
      (s1.evidence 1).status = .FLAGGED ∧
      s1.events = registeredState.events ++
        [LogEvent.TamperDetected 1 9 (registeredState.evidence 1).evidenceHash 43 300] ∧
      s1.custodyLog = registeredState.custodyLog ∧
      (s1.evidence 1).custodyEventCount = (registeredState.evidence 1).custodyEventCount ∧
      (s1.evidence 1).evidenceHash = (registeredState.evidence 1).evidenceHash ∧
      (s1.evidence 1).caseId = (registeredState.evidence 1).caseId ∧
      (s1.evidence 1).collector = (registeredState.evidence 1).collector ∧
      (s1.evidence 1).timestamp = (registeredState.evidence 1).timestamp ∧
      (∀ j, j ≠ 1 → s1.evidence j = registeredState.evidence j) ∧
      s1.evidenceCounter = registeredState.evidenceCounter ∧
      s1.hashRegistered = registeredState.hashRegistered ∧
      s1.attestations = registeredState.attestations ∧
      s1.isRegisteredVerifier = registeredState.isRegisteredVerifier :=
  verifyEvidence_mismatch_flags 9 300 1 43 registeredState (by rfl) (by decide)
    (by decide)

/-- C4: a `verifyEvidence` call on an existing item with the stored hash
returns `true`, sets status to VERIFIED (from any prior non-NONE status,
including FLAGGED), appends a VERIFIED custody event whose metadataHash
is the submitted hash, and leaves the stored hash unchanged; because the
hash is unchanged and the status stays non-NONE, repeating the matching
call keeps returning `true`. -/
theorem verifyEvidence_match_verified (sender ts evidenceId submittedHash : Nat)
    (s : RState)
    (hex : requireExists evidenceId s = .ok ())
    (hnz : submittedHash ≠ 0)
    (heq : (s.evidence evidenceId).evidenceHash = submittedHash)
    (hof : (s.evidence evidenceId).custodyEventCount + 1 < UINT256_MOD) :
    ∃ s2 : RState,
      verifyEvidence sender ts evidenceId submittedHash s = .ok (s2, true) ∧
      (s2.evidence evidenceId).status = .VERIFIED ∧
      (s2.evidence evidenceId).evidenceHash = (s.evidence evidenceId).evidenceHash ∧
      (s2.evidence evidenceId).custodyEventCount =
        (s.evidence evidenceId).custodyEventCount + 1 ∧
      s2.custodyLog evidenceId (s.evidence evidenceId).custodyEventCount =
        { handler := sender, action := ACTION_VERIFIED, timestamp := ts,
          metadataHash := submittedHash } ∧
      s2.events = s.events ++
        [LogEvent.CustodyEventLogged evidenceId sender ACTION_VERIFIED
          (s.evidence evidenceId).custodyEventCount ts,
         LogEvent.VerificationPassed evidenceId sender ts] ∧
      s2.evidenceCounter = s.evidenceCounter ∧
      (∀ sender2 ts2 : Nat, ∃ s3,
        verifyEvidence sender2 ts2 evidenceId submittedHash s2 = .ok (s3, true)) := by
  have hm : ((s.evidence evidenceId).custodyEventCount + 1) % UINT256_MOD =
      (s.evidence evidenceId).custodyEventCount + 1 := Nat.mod_eq_of_lt hof
  unfold verifyEvidence
  rw [hex]
  rw [if_neg hnz, if_pos heq]
  refine ⟨_, rfl, ?_, ?_, ?_, ?_, ?_, ?_, ?_⟩
  case _ => simp [logCustodyEventInternal]
  case _ => simp [logCustodyEventInternal]
  case _ => simp [logCustodyEventInternal, hm]
  case _ => simp [logCustodyEventInternal]
  case _ => simp [logCustodyEventInternal]
  case _ => rfl
  case _ =>
    intro sender2 ts2
    apply verify_match_true
    · rw [requireExists_ok]
      rw [requireExists_ok] at hex
      refine ⟨⟨hex.1.1, ?_⟩, ?_⟩
      · simpa [logCustodyEventInternal] using hex.1.2
      · simp [logCustodyEventInternal]
    · exact hnz
    · simp [logCustodyEventInternal, heq]

/-- C4 witness: matching verification of item 1 with hash 42 on the
concrete registered state. -/
theorem verifyEvidence_match_verified_witness :
    ∃ s2 : RState,
      verifyEvidence 9 300 1 42 registeredState = .ok (s2, true) ∧
      (s2.evidence 1).status = .VERIFIED ∧
      (s2.evidence 1).evidenceHash = (registeredState.evidence 1).evidenceHash ∧
      (s2.evidence 1).custodyEventCount =
        (registeredState.evidence 1).custodyEventCount + 1 ∧
      s2.custodyLog 1 (registeredState.evidence 1).custodyEventCount =
        { handler := 9, action := ACTION_VERIFIED, timestamp := 300,
          metadataHash := 42 } ∧
      s2.events = registeredState.events ++
        [LogEvent.CustodyEventLogged 1 9 ACTION_VERIFIED
          (registeredState.evidence 1).custodyEventCount 300,
         LogEvent.VerificationPassed 1 9 300] ∧
      s2.evidenceCounter = registeredState.evidenceCounter ∧
      (∀ sender2 ts2 : Nat, ∃ s3,
        verifyEvidence sender2 ts2 1 42 s2 = .ok (s3, true)) :=
  verifyEvidence_match_verified 9 300 1 42 registeredState (by rfl) (by decide)
    (by decide) (by decide)

/-- C8: attesting as an unregistered verifier reverts with the
not-registered error; a successful attest appends exactly one Attestation
with that verifier and outcome (other ids untouched); and once a verifier
has successfully attested for an evidence id, every later attest call by
the same verifier for that id — after any further sequence of successful
calls, and whatever boolean is passed — reverts with the duplicate error,
so the attestation list is left unchanged (a revert returns no state). -/
theorem attestation_uniqueness :
    (∀ sender ts evidenceId : Nat, ∀ v : Bool, ∀ s : RState,
      requireExists evidenceId s = .ok () →
      s.isRegisteredVerifier sender = false →
      attestVerification sender ts evidenceId v s = .error "Not registered verifier") ∧
    (∀ sender ts evidenceId : Nat, ∀ v : Bool, ∀ s s2 : RState,
      attestVerification sender ts evidenceId v s = .ok s2 →
      s2.attestations evidenceId = s.attestations evidenceId ++
        [{ verifier := sender, verified := v, timestamp := ts }] ∧
      (∀ j, j ≠ evidenceId → s2.attestations j = s.attestations j)) ∧
    (∀ sender ts evidenceId : Nat, ∀ v : Bool, ∀ s s2 s3 : RState,
      attestVerification sender ts evidenceId v s = .ok s2 →
      Reachable s2 s3 →
      requireExists evidenceId s3 = .ok () →
      ∀ ts2 : Nat, ∀ v2 : Bool,
        attestVerification sender ts2 evidenceId v2 s3 = .error "Already attested") := by
  refine ⟨attest_unregistered_fails, ?_, attest_once⟩
  intro sender ts evidenceId v s s2 h
  obtain ⟨_, happ, hother, _, _, _⟩ := attest_ok_elim sender ts evidenceId v s s2 h
  exact ⟨happ, hother⟩

/-- Contract state with verifier 9 registered, on top of the concrete
registered state. -/
def verifState : RState := registerAsVerifier 9 registeredState

/-- Contract state after verifier 9 has attested once for evidence 1. -/
def attState : RState :=
  match attestVerification 9 300 1 true verifState with
  | .ok s => s
  | .error _ => verifState

/-- C8 witness: the concrete repeat attestation fails with the duplicate
error even though the boolean differs. -/
theorem attestation_uniqueness_witness :
    attestVerification 9 400 1 false attState = .error "Already attested" :=
  attestation_uniqueness.2.2 9 300 1 true verifState attState attState (by rfl)
    Relation.ReflTransGen.refl (by rfl) 400 false

/-- C9 corrected claim: calling `logCustodyEventWithMetadata` with the
zero metadata value on an existing item always reverts with the
metadata-required message (leaving all state unchanged, since a revert
returns no state), even though zero encodes no-metadata in the data
model; and a custody event with zero metadataHash can enter the log only
through the metadata-less `logCustodyEvent` entry point or through the
automatic COLLECTED event of `registerEvidence` — never through
`logCustodyEventWithMetadata` or `verifyEvidence`. -/
theorem zero_metadata_rejected :
    (∀ sender ts evidenceId action : Nat, ∀ s : RState,
      requireExists evidenceId s = .ok () →
      logCustodyEventWithMetadata sender ts evidenceId action 0 s =
        .error "Metadata hash required") ∧
    (∀ op : Op, ∀ s s2 : RState,
      applyOp op s = .ok s2 →
      (∃ i j, s2.custodyLog i j ≠ s.custodyLog i j ∧
        (s2.custodyLog i j).metadataHash = 0) →
      (∃ a b c d, op = Op.logEvent a b c d) ∨
      (∃ a b c : Nat, ∃ d : String, op = Op.register a b c d)) := by
  constructor
  · intro sender ts evidenceId action s hex
    unfold logCustodyEventWithMetadata
    rw [hex]
    rw [if_pos rfl]
  · intro op s s2 h hz
    obtain ⟨i, j, hne, hzero⟩ := hz
    cases op with
    | register a b c d => exact Or.inr ⟨a, b, c, d, rfl⟩
    | logEvent a b c d => exact Or.inl ⟨a, b, c, d, rfl⟩
    | logEventMeta a b c d e =>
      exfalso
      simp only [applyOp] at h
      unfold logCustodyEventWithMetadata at h
      cases hre : requireExists c s with
      | error msg => rw [hre] at h; exact Except.noConfusion h
      | ok u =>
        rw [hre] at h
        by_cases hm : e = 0
        · rw [if_pos hm] at h; exact Except.noConfusion h
        · rw [if_neg hm] at h
          have hs2 : s2 = logCustodyEventInternal a b c d e s := by
            cases h; rfl
          subst hs2
          have hval := custodyLog_update_cases a b c d e s i j hne
          rw [hval] at hzero
          exact hm hzero
    | verify a b c d =>
      exfalso
      simp only [applyOp] at h
      unfold verifyEvidence at h
      cases hre : requireExists c s with
      | error msg => rw [hre] at h; exact Except.noConfusion h
      | ok u =>
        rw [hre] at h
        by_cases hd0 : d = 0
        · rw [if_pos hd0] at h; exact Except.noConfusion h
        · rw [if_neg hd0] at h
          by_cases hmatch : (s.evidence c).evidenceHash = d
          · rw [if_pos hmatch] at h
            simp only [Except.map] at h
            have hs2 : s2 = { logCustodyEventInternal a b c ACTION_VERIFIED d
                { s with evidence := fun i =>
                    if i = c then { s.evidence c with status := .VERIFIED }
                    else s.evidence i } with
                events := (logCustodyEventInternal a b c ACTION_VERIFIED d
                  { s with evidence := fun i =>
                      if i = c then { s.evidence c with status := .VERIFIED }
                      else s.evidence i }).events ++
                  [LogEvent.VerificationPassed c a b] } := by
              cases h; rfl
            subst hs2
            have hval := custodyLog_update_cases a b c ACTION_VERIFIED d
              { s with evidence := fun i =>
                  if i = c then { s.evidence c with status := .VERIFIED }
                  else s.evidence i } i j hne
            rw [hval] at hzero
            exact hd0 hzero
          · rw [if_neg hmatch] at h
            simp only [Except.map] at h
            have hs2 : s2 = { s with
                evidence := fun i =>
                  if i = c then { s.evidence c with status := .FLAGGED }
                  else s.evidence i,
                events := s.events ++
                  [LogEvent.TamperDetected c a (s.evidence c).evidenceHash d b] } := by
              cases h; rfl
            subst hs2
            exact hne rfl
    | registerVerifier a =>
      exfalso
      simp only [applyOp] at h
      unfold registerAsVerifier at h
      cases h
      exact hne rfl
    | attest a b c d =>
      exfalso
      simp only [applyOp] at h
      unfold attestVerification at h
      cases hre : requireExists c s with
      | error msg => rw [hre] at h; exact Except.noConfusion h
      | ok u =>
        rw [hre] at h
        by_cases hreg : s.isRegisteredVerifier a = false
        · rw [if_pos hreg] at h; exact Except.noConfusion h
        · rw [if_neg hreg] at h
          by_cases hdup : (s.attestations c).any (fun x => x.verifier = a) = true
          · rw [if_pos hdup] at h; exact Except.noConfusion h
          · rw [if_neg hdup] at h
            cases h
            exact hne rfl

/-- C9 counterexample: it is not true that a zero-metadata custody event
can only be appended by `logCustodyEvent` — the automatic COLLECTED event
of `registerEvidence` (here: registering hash 42 on the fresh contract)
also carries zero metadataHash. -/
theorem zero_metadata_not_only_logCustodyEvent :
    ¬ (∀ (op : Op) (s s2 : RState), applyOp op s = .ok s2 →
        (∃ i j, s2.custodyLog i j ≠ s.custodyLog i j ∧
          (s2.custodyLog i j).metadataHash = 0) →
        ∃ a b c d, op = Op.logEvent a b c d) := by
  intro hAll
  have hap : applyOp (Op.register 7 100 42 "case-1") initialState =
      .ok registeredState := by
    rfl
  have hz : ∃ i j, registeredState.custodyLog i j ≠ initialState.custodyLog i j ∧
      (registeredState.custodyLog i j).metadataHash = 0 := by
    refine ⟨1, 0, ?_, rfl⟩
    decide
  obtain ⟨a, b, c, d, hop⟩ := hAll _ _ _ hap hz
  exact Op.noConfusion hop

/-- Contract state after a metadata-less custody event (action 77) on the
concrete registered state. -/
def loggedState : RState :=
  match logCustodyEvent 7 600 1 77 registeredState with
  | .ok s => s
  | .error _ => registeredState

/-- C9 witness: the metadata-bearing entry point rejects the zero value
on the concrete registered state, and a concrete metadata-less
`logCustodyEvent` call is a legitimate source of a zero-metadata event. -/
theorem zero_metadata_rejected_witness :
    logCustodyEventWithMetadata 7 500 1 77 0 registeredState =
      .error "Metadata hash required" ∧
    ((∃ a b c d, Op.logEvent 7 600 1 77 = Op.logEvent a b c d) ∨
      (∃ a b c : Nat, ∃ d : String, Op.logEvent 7 600 1 77 = Op.register a b c d)) :=
  ⟨zero_metadata_rejected.1 7 500 1 77 registeredState (by rfl),
    zero_metadata_rejected.2 (Op.logEvent 7 600 1 77) registeredState loggedState
      (by rfl) ⟨1, 1, by decide, by decide⟩⟩

end EvidenceRegistry

namespace PolicyEngine

/-- C5: order enforcement.  In general, whenever the proposed action sits
in `requiredOrder` strictly more than one position past the current step
and the skipped slice contains at least one step outside `allowedSkips`,
`_validateOrder` rejects and its detail lists exactly the invalidly
skipped steps.  Under the default policy, proposing VERIFIED while the
current step is COLLECTED is rejected by `validateCustodyAction` with the
INVALID_CUSTODY_ORDER violation whose detail cites SEALED (and ANALYZED)
as the invalidly skipped steps. -/
theorem custody_order_skip_rejection :
    (∀ policy : Policy, ∀ cur next : String,
      cur ≠ next →
      jsIndexOf policy.requiredOrder next ≠ -1 →
      jsIndexOf policy.requiredOrder next > jsIndexOf policy.requiredOrder cur + 1 →
      (jsSlice policy.requiredOrder (jsIndexOf policy.requiredOrder cur + 1)
          (jsIndexOf policy.requiredOrder next)).filter
          (fun x => policy.allowedSkips.contains x = false) ≠ [] →
      validateOrder cur next policy =
        .invalid ("Cannot skip required steps: " ++ String.intercalate ", "
          ((jsSlice policy.requiredOrder (jsIndexOf policy.requiredOrder cur + 1)
            (jsIndexOf policy.requiredOrder next)).filter
            (fun x => policy.allowedSkips.contains x = false)))) ∧
    (∀ st : PolicyState, ∀ now : Int, ∀ evidenceId : Nat, ∀ handler : String,
      st.custodyState evidenceId = some "COLLECTED" →
      validateCustodyAction st now evidenceId "VERIFIED" handler =
        (.violation "INVALID_CUSTODY_ORDER" "Cannot skip required steps: SEALED, ANALYZED",
          st) ∧
      "SEALED" ∈ (jsSlice defaultPolicy.requiredOrder
          (jsIndexOf defaultPolicy.requiredOrder "COLLECTED" + 1)
          (jsIndexOf defaultPolicy.requiredOrder "VERIFIED")).filter
          (fun x => defaultPolicy.allowedSkips.contains x = false)) := by
  constructor
  · intro policy cur next hne hnext hskip hinv
    unfold validateOrder
    rw [if_neg hne, if_neg hnext, if_pos ⟨hskip, hinv⟩]
  · intro st now evidenceId handler hcur
    constructor
    · unfold validateCustodyAction
      rw [hcur]
      rfl
    · decide

/-- Engine state with evidence 1 at current step COLLECTED and no
checkout. -/
def stOrder : PolicyState :=
  { custodyState := fun i => if i = 1 then some "COLLECTED" else none,
    activeCheckouts := fun _ => none }

/-- C5 witness: both parts at concrete inputs — the default policy with
current step COLLECTED and proposed action VERIFIED. -/
theorem custody_order_skip_rejection_witness :
    validateOrder "COLLECTED" "VERIFIED" defaultPolicy =
      .invalid ("Cannot skip required steps: " ++ String.intercalate ", "
        ((jsSlice defaultPolicy.requiredOrder
          (jsIndexOf defaultPolicy.requiredOrder "COLLECTED" + 1)
          (jsIndexOf defaultPolicy.requiredOrder "VERIFIED")).filter
          (fun x => defaultPolicy.allowedSkips.contains x = false))) ∧
    validateCustodyAction stOrder 0 1 "VERIFIED" "handler-a" =
      (.violation "INVALID_CUSTODY_ORDER" "Cannot skip required steps: SEALED, ANALYZED",
        stOrder) :=
  ⟨custody_order_skip_rejection.1 defaultPolicy "COLLECTED" "VERIFIED" (by decide)
      (by decide) (by decide) (by decide),
    (custody_order_skip_rejection.2 stOrder 0 1 "handler-a" rfl).1⟩

/-- Engine state with evidence 1 at current step ACCESSED and an active
checkout held by alice since time 0. -/
def stHeld : PolicyState :=
  { custodyState := fun i => if i = 1 then some "ACCESSED" else none,
    activeCheckouts := fun i =>
      if i = 1 then some { handler := "alice", since := 0 } else none }

/-- C6 counterexample: repeating the current step is not always accepted.
With current step ACCESSED and an active checkout held by alice, a repeat
ACCESSED by bob is rejected with a parallel-access violation. -/
theorem same_step_not_always_accepted :
    stHeld.custodyState 1 = some "ACCESSED" ∧
    (validateCustodyAction stHeld 1 1 "ACCESSED" "bob").1 =
      .violation "PARALLEL_ACCESS_VIOLATION" "Evidence currently held by alice" ∧
    (validateCustodyAction stHeld 1 1 "ACCESSED" "bob").1 ≠ .valid := by
  refine ⟨rfl, rfl, ?_⟩
  intro h
  simp [validateCustodyAction, stHeld, validateOrder, defaultPolicy] at h

/-- C6 amended claim: repeating the current step always passes the order
check, so such a call is accepted whenever the parallel-access check (the
action is COLLECTED, or no checkout by a different handler exists) and
the access-duration check also pass; the same-step repeat is only
guaranteed to be accepted under those side conditions, not for every
checkout state. -/
theorem same_step_accept_when_checks_pass (st : PolicyState) (now : Int)
    (evidenceId : Nat) (action handler : String)
    (hset : st.custodyState evidenceId = some action)
    (hnn : action ≠ "NONE")
    (hpar : action = "COLLECTED" ∨
      ∀ c, st.activeCheckouts evidenceId = some c → c.handler = handler)
    (hdur : ∀ c, st.activeCheckouts evidenceId = some c →
      now - c.since ≤ (defaultPolicy.maxAccessDurationHours : Int) * 3600000) :
    (validateCustodyAction st now evidenceId action handler).1 = .valid := by
  unfold validateCustodyAction
  rw [hset]
  simp only [Option.getD_some]
  rw [if_pos hnn]
  have hord : validateOrder action action defaultPolicy = .valid := by
    unfold validateOrder
    rw [if_pos rfl]
  rw [hord]
  cases hc : st.activeCheckouts evidenceId with
  | none => simp [hc]
  | some c =>
    have hdle := hdur c hc
    rcases hpar with hcol | hh
    · subst hcol
      simp only [hc]
      have hnle : ¬ ((now - c.since : Int) >
          (defaultPolicy.maxAccessDurationHours : Int) * 3600000) := by
        omega
      simp [hnle]
    · have hch := hh c hc
      simp only [hc, hch]
      have hnle : ¬ ((now - c.since : Int) >
          (defaultPolicy.maxAccessDurationHours : Int) * 3600000) := by
        omega
      simp [hnle, hch]

/-- C6 witness: the holder alice repeating ACCESSED within the duration
bound is accepted. -/
theorem same_step_accept_when_checks_pass_witness :
    (validateCustodyAction stHeld 1 1 "ACCESSED" "alice").1 = .valid :=
  same_step_accept_when_checks_pass stHeld 1 1 "ACCESSED" "alice" rfl (by decide)
    (Or.inr (fun c hc => by
      simp only [stHeld, if_pos rfl] at hc
      cases hc
      rfl))
    (fun c hc => by
      simp only [stHeld, if_pos rfl] at hc
      cases hc
      decide)

/-- C10: once the active checkout of an evidence id has been held longer
than the 48-hour ceiling of the default policy, every later
`validateCustodyAction` call for that id — any action, any handler,
including the checkout holder, at any time from then on — is rejected,
and the engine state is returned unchanged, so the rejection persists;
any such call that passes the order and parallel-access checks is
rejected specifically with ACCESS_DURATION_EXCEEDED; `releaseCheckout`
deletes the checkout entry. -/
theorem access_duration_lockout (st : PolicyState) (evidenceId : Nat)
    (c : Checkout) (now : Int)
    (hco : st.activeCheckouts evidenceId = some c)
    (hheld : now - c.since > (defaultPolicy.maxAccessDurationHours : Int) * 3600000) :
    (∀ now2 : Int, now2 ≥ now → ∀ action handler : String,
      (validateCustodyAction st now2 evidenceId action handler).1 ≠ .valid ∧
      (validateCustodyAction st now2 evidenceId action handler).2 = st ∧
      ((((st.custodyState evidenceId).getD "NONE") = "NONE" ∨
        validateOrder ((st.custodyState evidenceId).getD "NONE") action
          defaultPolicy = .valid) →
       (action = "COLLECTED" ∨ c.handler = handler) →
       (validateCustodyAction st now2 evidenceId action handler).1 =
         .violation "ACCESS_DURATION_EXCEEDED" "Max duration 48h exceeded")) ∧
    (releaseCheckout evidenceId st).activeCheckouts evidenceId = none := by
  constructor
  · intro now2 hnow2 action handler
    have hheld2 : now2 - c.since >
        (defaultPolicy.maxAccessDurationHours : Int) * 3600000 := by
      omega
    have hd : (match st.activeCheckouts evidenceId with
        | some cc => decide (now2 - cc.since >
            (defaultPolicy.maxAccessDurationHours : Int) * 3600000)
        | none => false) = true := by
      rw [hco]
      exact decide_eq_true hheld2
    unfold validateCustodyAction
    simp only [hd]
    split
    case h_1 reason heq =>
      refine ⟨by simp, rfl, ?_⟩
      intro ho _
      exfalso
      rcases ho with h1 | h2
      · rw [if_neg (by simp [h1])] at heq
        exact OrderResult.noConfusion heq
      · by_cases hnn : ((st.custodyState evidenceId).getD "NONE") ≠ "NONE"
        · rw [if_pos hnn, h2] at heq
          exact OrderResult.noConfusion heq
        · rw [if_neg hnn] at heq
          exact OrderResult.noConfusion heq
    case h_2 heq =>
      split
      case h_1 holder heq2 =>
        refine ⟨by simp, rfl, ?_⟩
        intro _ hp
        exfalso
        rcases hp with h1 | h2
        · rw [if_neg (by simp [h1, defaultPolicy])] at heq2
          exact Option.noConfusion heq2
        · by_cases hcna : defaultPolicy.noParallelAccess = true ∧ action ≠ "COLLECTED"
          · rw [if_pos hcna, hco] at heq2
            simp [h2] at heq2
          · rw [if_neg hcna] at heq2
            exact Option.noConfusion heq2
      case h_2 heq2 =>
        exact ⟨by simp, rfl, fun _ _ => rfl⟩
  · simp [releaseCheckout]

/-- C10 witness: with the concrete held-since-0 checkout and the clock
just past the 48-hour mark, even the holder repeating ACCESSED is
rejected with ACCESS_DURATION_EXCEEDED, the state is unchanged, and
releasing the checkout clears it. -/
theorem access_duration_lockout_witness :
    (validateCustodyAction stHeld 172800001 1 "ACCESSED" "alice").1 =
      .violation "ACCESS_DURATION_EXCEEDED" "Max duration 48h exceeded" ∧
    (validateCustodyAction stHeld 172800001 1 "ACCESSED" "alice").2 = stHeld ∧
    (releaseCheckout 1 stHeld).activeCheckouts 1 = none := by
  have H := access_duration_lockout stHeld 1 { handler := "alice", since := 0 }
    172800001 rfl (by decide)
  have H2 := H.1 172800001 le_rfl "ACCESSED" "alice"
  exact ⟨H2.2.2 (Or.inr (by decide)) (Or.inr rfl), H2.2.1, H.2⟩

end PolicyEngine

namespace BlockchainService

/-- C7 counterexample: VIOLATION is a canonical contract action, but the
hard-coded reverse-lookup list in `getActionName` has only five entries,
so the fingerprint of VIOLATION resolves to UNKNOWN, not to VIOLATION. -/
theorem actionName_violation_counterexample :
    getActionName (EvidenceRegistry.getActionHash "VIOLATION") = "UNKNOWN" ∧
    ("UNKNOWN" : String) ≠ "VIOLATION" := by
  constructor
  · rfl
  · decide

/-- C7 amended claim: the reverse-lookup vocabulary is the five-name list
{COLLECTED, ACCESSED, TRANSFERRED, VERIFIED, ANALYZED}: for each of these
`getActionName (getActionHash name) = name`, and every fingerprint that
matches none of the five (which includes the fingerprint of VIOLATION)
resolves to UNKNOWN. -/
theorem actionName_roundtrip :
    (∀ name ∈ canonicalActions,
      getActionName (EvidenceRegistry.getActionHash name) = name) ∧
    (∀ h : Nat,
      (∀ name ∈ canonicalActions, EvidenceRegistry.getActionHash name ≠ h) →
      getActionName h = "UNKNOWN") := by
  constructor
  · decide
  · intro h hh
    unfold getActionName
    have hfind : canonicalActions.find?
        (fun a => EvidenceRegistry.getActionHash a = h) = none := by
      rw [List.find?_eq_none]
      intro x hx
      simp only [decide_eq_true_eq]
      exact hh x hx
    rw [hfind]

/-- C7 witness: the roundtrip on TRANSFERRED and the UNKNOWN fallback at
fingerprint 0 (which no canonical action hashes to). -/
theorem actionName_roundtrip_witness :
    getActionName (EvidenceRegistry.getActionHash "TRANSFERRED") = "TRANSFERRED" ∧
    getActionName 0 = "UNKNOWN" :=
  ⟨actionName_roundtrip.1 "TRANSFERRED" (by decide),
    actionName_roundtrip.2 0 (by decide)⟩

end BlockchainService
